import Mathlib

/-
Verification of the snscrape CLI driver (src/snscrape/cli.py) against its
natural-language specification.

The file shallowly embeds the driver core in Lean:
* the result-streaming loop of `main` (age cutoff and result cap policies),
* the subclass traversal and subcommand registration of `parse_args`,
* the crash-diagnostics context manager `_dump_locals_on_exception`,
* the timestamp parser `parse_datetime_arg` (including a model of CPython
  `datetime.strptime` for the four format strings the code uses, of `int(str)`,
  and of `datetime.fromtimestamp` with an explicit UTC timezone).

Machine integers are modelled as `Int`/`Nat` (Python ints are unbounded).
Python exceptions are modelled as explicit error values (`Option`/`Except` or
dedicated outcome types).
-/

set_option autoImplicit false

namespace Snscrape

/-! ## Execution loop (`main`, cli.py lines 109-123)

An item is opaque to the driver except for its `date` field, which the loop
compares against `--since`.  Dates are modelled as `Int` (the loop only needs
a linear order on timestamps; `main` compares `item.date < args.since`).
Rendering an item (the `print` calls on lines 115-118) is modelled as the item
appearing in the output list: whether `--format` is used changes only the text
printed, never which items are printed or when the loop stops, and no claim
refers to the rendered text itself. -/

structure Item where
  date : Int
  deriving DecidableEq

/-- How a run of the loop ends: `cutoff` is the `break` on line 114 (an item
older than `since` was pulled), `cap` is the `break` on line 121 (the result
cap was reached), `done total` is the `for`/`else` branch on lines 122-123
(the sequence was exhausted after `total` items). All are normal terminations:
the loop body raises nothing itself. -/
inductive Term where
  | cutoff
  | cap
  | done (total : Nat)
  deriving DecidableEq

/-- Line 112: `args.since is not None and item.date < args.since`. -/
def cutoffHit (since : Option Int) (item : Item) : Bool :=
  match since with
  | none => false
  | some s => item.date < s

/-- Line 119: `args.maxResults and i >= args.maxResults`.  The first conjunct
is Python truthiness of an `Optional[int]`: `None` and `0` are falsy.  `i` is
the 1-based index of the current item (`enumerate(..., start = 1)`). -/
def capHit (maxResults : Option Int) (i : Nat) : Bool :=
  match maxResults with
  | none => false
  | some n => n ≠ 0 && n ≤ (i : Int)

/-- The `for` loop of `main`, with `i` the number of items already pulled
(so the current item is item number `i + 1`).  Per item, in the source's
order: the cutoff test runs before rendering and excludes the item; the cap
test runs after rendering and includes the item. -/
def runLoopAux (since maxResults : Option Int) : List Item → Nat → List Item × Term
  | [], i => ([], .done i)
  | item :: rest, i =>
    if cutoffHit since item then
      ([], .cutoff)
    else
      if capHit maxResults (i + 1) then
        ([item], .cap)
      else
        let r := runLoopAux since maxResults rest (i + 1)
        (item :: r.1, r.2)

/-- The whole loop, started with `i = 0` (line 109: `i = 0`). -/
def runLoop (since maxResults : Option Int) (items : List Item) : List Item × Term :=
  runLoopAux since maxResults items 0

/-! ### Loop lemmas -/

/-- Every item the loop renders survived the cutoff test: its date is at least
`since`. -/
theorem runLoopAux_rendered_ge (s : Int) (mr : Option Int) :
    ∀ (items : List Item) (i : Nat),
      ∀ it ∈ (runLoopAux (some s) mr items i).1, s ≤ it.date := by
  intro items
  induction items with
  | nil => intro i it h; simp [runLoopAux] at h
  | cons hd tl ih =>
    intro i it h
    by_cases hcut : cutoffHit (some s) hd
    · simp [runLoopAux, hcut] at h
    · by_cases hcap : capHit mr (i + 1)
      · simp [runLoopAux, hcut, hcap] at h
        subst h
        simpa [cutoffHit, not_lt] using hcut
      · simp [runLoopAux, hcut, hcap] at h
        rcases h with h | h
        · subst h
          simpa [cutoffHit, not_lt] using hcut
        · exact ih (i + 1) it h

/-- With a positive cap `n`, no cutoff trigger and at least `n` items left,
the loop renders the next `n - i` items and stops with a cap termination. -/
theorem runLoopAux_cap_run (since : Option Int) (mr : Option Int) (n : Int)
    (hmr : mr = some n) (hn : 0 < n) :
    ∀ (items : List Item) (i : Nat),
      (∀ s, since = some s → ∀ it ∈ items, s ≤ it.date) →
      (i : Int) < n → n ≤ (i : Int) + items.length →
      runLoopAux since mr items i = (items.take (n - i).toNat, .cap) := by
  intro items
  induction items with
  | nil =>
    intro i _ hlt hle
    simp only [List.length_nil, Nat.cast_zero, add_zero] at hle
    omega
  | cons hd tl ih =>
    intro i hcut hlt hle
    have hcuthd : cutoffHit since hd = false := by
      match since with
      | none => rfl
      | some s =>
        have := hcut s rfl hd (by simp)
        simp [cutoffHit, not_lt, this]
    by_cases hcap : n ≤ (i : Int) + 1
    · have hcapb : capHit mr (i + 1) = true := by
        simp [capHit, hmr]
        constructor
        · omega
        · omega
      have htake : (n - i).toNat = 1 := by omega
      simp [runLoopAux, hcuthd, hcapb, htake]
    · have hcapb : capHit mr (i + 1) = false := by
        simp [capHit, hmr]
        intro _
        omega
      have hrec := ih (i + 1) (fun s hs it hit => hcut s hs it (by simp [hit]))
        (by omega)
        (by simp only [List.length_cons] at hle; push_cast at hle ⊢; omega)
      have htake : (n - i).toNat = (n - (i + 1)).toNat + 1 := by omega
      simp [runLoopAux, hcuthd, hcapb, hrec, htake]

/-- A value of `0` for `maxResults` is falsy in Python, so the cap test on
line 119 behaves exactly as if `maxResults` were `None`. -/
theorem runLoopAux_cap_zero (since : Option Int) :
    ∀ (items : List Item) (i : Nat),
      runLoopAux since (some 0) items i = runLoopAux since none items i := by
  intro items
  induction items with
  | nil => intro i; rfl
  | cons hd tl ih =>
    intro i
    by_cases hcut : cutoffHit since hd
    · simp [runLoopAux, hcut]
    · have h0 : capHit (some 0) (i + 1) = false := by simp [capHit]
      have hn : capHit none (i + 1) = false := rfl
      simp [runLoopAux, hcut, h0, hn, ih]

/-! ### Claim theorems for the execution loop -/

/-- Claim C1: whenever `since` is set, an item strictly older than `since`
stops the loop before that item is rendered, with the normal cutoff
termination (first conjunct, at any loop state); every rendered item has a
date at least `since`, so an item dated exactly `since` is never excluded by
the cutoff (second conjunct) and is indeed rendered when pulled (third
conjunct); on the spec's example, dates `[5,4,3,2,1]` with `since = 3`
render exactly `[5,4,3]` and stop with the cutoff termination (fourth
conjunct). -/
theorem since_cutoff_stops_before_render (since mr : Option Int) (s : Int)
    (hs : since = some s) :
    (∀ (it : Item) (rest : List Item) (i : Nat), it.date < s →
        runLoopAux since mr (it :: rest) i = ([], .cutoff)) ∧
    (∀ items : List Item, ∀ it ∈ (runLoop since mr items).1, s ≤ it.date) ∧
    (∀ (it : Item) (rest : List Item) (i : Nat), it.date = s →
        (runLoopAux since mr (it :: rest) i).1.head? = some it) ∧
    runLoop (some 3) none [⟨5⟩, ⟨4⟩, ⟨3⟩, ⟨2⟩, ⟨1⟩] = ([⟨5⟩, ⟨4⟩, ⟨3⟩], .cutoff) := by
  subst hs
  refine ⟨?_, ?_, ?_, by decide⟩
  · intro it rest i hold
    simp [runLoopAux, cutoffHit, hold]
  · intro items it h
    exact runLoopAux_rendered_ge s mr items 0 it h
  · intro it rest i heq
    have hcut : cutoffHit (some s) it = false := by simp [cutoffHit, heq]
    by_cases hcap : capHit mr (i + 1) <;> simp [runLoopAux, hcut, hcap]

/-- Witness for C1 at the spec's concrete example. -/
theorem since_cutoff_stops_before_render_witness :
    runLoop (some 3) none [⟨5⟩, ⟨4⟩, ⟨3⟩, ⟨2⟩, ⟨1⟩] = ([⟨5⟩, ⟨4⟩, ⟨3⟩], .cutoff) :=
  (since_cutoff_stops_before_render (some 3) none 3 rfl).2.2.2

/-- Claim C2: with `maxResults = n > 0` and a run in which the age cutoff
never triggers, the cap is tested only after rendering, so the `n`-th item is
included: a sequence of at least `n` items renders exactly its first `n`
items and stops with the cap termination; on the spec's example,
`maxResults = 2` and no cutoff render exactly the first two items. -/
theorem cap_counts_rendered_item (since mr : Option Int) (n : Int)
    (items : List Item) (hmr : mr = some n) (hn : 0 < n)
    (hcut : ∀ s, since = some s → ∀ it ∈ items, s ≤ it.date)
    (hlen : n ≤ (items.length : Int)) :
    runLoop since mr items = (items.take n.toNat, .cap) ∧
    runLoop none (some 2) [⟨5⟩, ⟨4⟩, ⟨3⟩] = ([⟨5⟩, ⟨4⟩], .cap) := by
  refine ⟨?_, by decide⟩
  have := runLoopAux_cap_run since mr n hmr hn items 0 hcut (by omega)
    (by push_cast; omega)
  simpa [runLoop] using this

/-- Witness for C2 at the spec's concrete example. -/
theorem cap_counts_rendered_item_witness :
    runLoop none (some 2) [⟨5⟩, ⟨4⟩, ⟨3⟩] = ([⟨5⟩, ⟨4⟩], .cap) :=
  (cap_counts_rendered_item none (some 2) 2 [⟨5⟩, ⟨4⟩, ⟨3⟩] rfl (by norm_num)
    (by intro s h; cases h) (by norm_num)).1

/-- Counterexample to claim C10 as stated: with `maxResults = -1`, the
non-empty sequence `[⟨5⟩]` under `since = 10` renders nothing and stops with
the cutoff termination, not with the first item rendered and a cap
termination — the claim's negative-cap case forgot that the age cutoff still
runs first. -/
theorem cap_negative_counterexample :
    runLoop (some 10) (some (-1)) [⟨5⟩] = ([], .cutoff) ∧
    ¬ runLoop (some 10) (some (-1)) [⟨5⟩] = ([⟨5⟩], .cap) := by
  decide

/-- Claim C10 as amended: `maxResults = 0` is falsy, so the loop behaves
exactly as with no cap at all; a negative `maxResults` is truthy and already
reached at the first item, so any sequence whose first item does not trigger
the age cutoff renders exactly that first item and stops with a cap
termination. -/
theorem cap_zero_and_negative (since : Option Int) (items : List Item) :
    runLoop since (some 0) items = runLoop since none items ∧
    (∀ (n : Int), n < 0 → ∀ (it : Item) (rest : List Item), items = it :: rest →
        (∀ s, since = some s → s ≤ it.date) →
        runLoop since (some n) items = ([it], .cap)) := by
  constructor
  · exact runLoopAux_cap_zero since items 0
  · intro n hneg it rest hitems hcut
    subst hitems
    have hcuthd : cutoffHit since it = false := by
      match since with
      | none => rfl
      | some s => simp [cutoffHit, not_lt, hcut s rfl]
    have hcap : capHit (some n) 1 = true := by
      simp [capHit]
      omega
    simp [runLoop, runLoopAux, hcuthd, hcap]

/-- Witness for C10 (amended) at concrete inputs. -/
theorem cap_zero_and_negative_witness :
    runLoop none (some 0) [⟨5⟩, ⟨4⟩] = runLoop none none [⟨5⟩, ⟨4⟩] ∧
    runLoop none (some (-1)) [⟨5⟩, ⟨4⟩] = ([⟨5⟩], .cap) :=
  ⟨(cap_zero_and_negative none [⟨5⟩, ⟨4⟩]).1,
   (cap_zero_and_negative none [⟨5⟩, ⟨4⟩]).2 (-1) (by norm_num) ⟨5⟩ [⟨4⟩] rfl
     (by intro s h; cases h)⟩

/-! ## Scraper registry and subcommand surface (`parse_args`, cli.py lines 58-82)

A scraper class is modelled by its `name` attribute (`None` for abstract,
intermediate classes) and its list of direct subclasses (`cls.__subclasses__()`).
Multiple inheritance makes the Python subclass graph a DAG; a class reachable
through two parents appears in both parents' `__subclasses__()` lists, which
the tree value mirrors by listing the node under both.

Lines 68-74 iterate over a list that is extended while being iterated
(`classes.extend(cls.__subclasses__())`), which is a breadth-first traversal;
`bfs` below is that loop.  Line 70 surfaces a class as a subcommand exactly
when `cls.name is not None`.  `subparsers.add_parser(cls.name, ...)` checks
the name against the existing `self._name_parser_map` and raises
`ArgumentError('conflicting subparser: ...')` when it is already registered
(argparse on Python 3.11+, the interpreter this code runs under), otherwise
stores the new parser under the name; `addParser` models that call. -/

inductive SClass where
  | mk (name : Option String) (subs : List SClass)

def SClass.name : SClass → Option String
  | .mk n _ => n

def SClass.subs : SClass → List SClass
  | .mk _ s => s

mutual

def SClass.treeSize : SClass → Nat
  | .mk _ subs => 1 + forestSize subs

def forestSize : List SClass → Nat
  | [] => 0
  | c :: cs => c.treeSize + forestSize cs

end

theorem forestSize_append (l₁ l₂ : List SClass) :
    forestSize (l₁ ++ l₂) = forestSize l₁ + forestSize l₂ := by
  induction l₁ with
  | nil => simp [forestSize]
  | cons c cs ih => simp [forestSize, ih]; omega

theorem forestSize_subs_lt (c : SClass) : forestSize c.subs < c.treeSize := by
  cases c with
  | mk n subs =>
    simp [SClass.treeSize, SClass.subs]

/-- The worklist loop of lines 69-74: `for cls in classes:
... classes.extend(cls.__subclasses__())`, returning classes in visit
order. -/
def bfs : List SClass → List SClass
  | [] => []
  | c :: rest => c :: bfs (rest ++ c.subs)
termination_by l => forestSize l
decreasing_by
  have h := forestSize_subs_lt c
  simp only [forestSize_append, forestSize]
  omega

/-- `Reaches1 r c`: class `c` is `r` itself or one of its transitive
subclasses (any number of specialization levels). -/
inductive Reaches1 : SClass → SClass → Prop
  | refl (c : SClass) : Reaches1 c c
  | step {a b c : SClass} : b ∈ a.subs → Reaches1 b c → Reaches1 a c

/-- The configuration error argparse raises during registration. -/
inductive RegError where
  | conflictingSubparser (nm : String)
  deriving DecidableEq

/-- Line 71: `subparsers.add_parser(cls.name, ...)`.  argparse (Python
3.11+) first checks `if name in self._name_parser_map` and raises
`ArgumentError('conflicting subparser: ...')` on a duplicate, otherwise
stores the parser under the name. -/
def addParser (m : List (String × SClass)) (nm : String) (c : SClass) :
    Except RegError (List (String × SClass)) :=
  if m.any (fun kv => kv.1 = nm) then .error (.conflictingSubparser nm)
  else .ok (m ++ [(nm, c)])

/-- Lines 70-73 for one visited class: surface it iff `cls.name is not
None`; an `ArgumentError` raised earlier aborts the loop (it propagates out
of `parse_args`). -/
def registerStep (st : Except RegError (List (String × SClass))) (c : SClass) :
    Except RegError (List (String × SClass)) :=
  match st with
  | .error e => .error e
  | .ok m =>
    match c.name with
    | some nm => addParser m nm c
    | none => .ok m

/-- The subcommand map built by the whole loop of lines 69-74, or the
registration error that aborted it. -/
def nameMap (roots : List SClass) : Except RegError (List (String × SClass)) :=
  (bfs roots).foldl registerStep (.ok [])

/-- The classes surfaced as subcommands, in traversal order. -/
def surfacedList (roots : List SClass) : List SClass :=
  (bfs roots).filter (fun c => c.name.isSome)

/-- The `(name, class)` pairs of the surfaced classes, in traversal order. -/
def surfacedPairs (roots : List SClass) : List (String × SClass) :=
  (bfs roots).filterMap (fun c => c.name.map (fun nm => (nm, c)))

/-- The surfaced names, in traversal order. -/
def surfacedNames (roots : List SClass) : List String :=
  (bfs roots).filterMap SClass.name

/-! ### Registry lemmas -/

theorem mem_bfs_iff_aux : ∀ (n : Nat) (l : List SClass), forestSize l ≤ n →
    ∀ c : SClass, c ∈ bfs l ↔ ∃ r ∈ l, Reaches1 r c := by
  intro n
  induction n with
  | zero =>
    intro l hl c
    cases l with
    | nil => simp [bfs]
    | cons c₀ rest =>
      exfalso
      have := forestSize_subs_lt c₀
      simp only [forestSize] at hl
      omega
  | succ n ih =>
    intro l hl c
    cases l with
    | nil => simp [bfs]
    | cons c₀ rest =>
      have hsize : forestSize (rest ++ c₀.subs) ≤ n := by
        have h1 := forestSize_subs_lt c₀
        simp only [forestSize] at hl
        rw [forestSize_append]
        omega
      have ih2 := ih (rest ++ c₀.subs) hsize
      simp only [bfs]
      constructor
      · intro h
        rcases List.mem_cons.mp h with h | h
        · exact ⟨c₀, by simp, h ▸ Reaches1.refl c⟩
        · rcases (ih2 c).mp h with ⟨r, hr, hrc⟩
          rcases List.mem_append.mp hr with hr | hr
          · exact ⟨r, by simp [hr], hrc⟩
          · exact ⟨c₀, by simp, Reaches1.step hr hrc⟩
      · rintro ⟨r, hr, hrc⟩
        rcases List.mem_cons.mp hr with hr | hr
        · subst hr
          cases hrc with
          | refl => simp
          | step hb hbc =>
            refine List.mem_cons_of_mem _ ((ih2 c).mpr ⟨_, ?_, hbc⟩)
            exact List.mem_append.mpr (Or.inr hb)
        · exact List.mem_cons_of_mem _
            ((ih2 c).mpr ⟨r, List.mem_append.mpr (Or.inl hr), hrc⟩)

/-- BFS correctness: the worklist loop visits exactly the classes reachable
from the initial worklist through any number of subclass steps. -/
theorem mem_bfs_iff (l : List SClass) (c : SClass) :
    c ∈ bfs l ↔ ∃ r ∈ l, Reaches1 r c :=
  mem_bfs_iff_aux (forestSize l) l le_rfl c

theorem foldl_registerStep_error (e : RegError) :
    ∀ l : List SClass, List.foldl registerStep (.error e) l = .error e := by
  intro l
  induction l with
  | nil => rfl
  | cons c cs ih => simpa [registerStep] using ih

/-- Registration succeeds on a worklist whose surfaced names are fresh and
mutually distinct, appending all its surfaced pairs. -/
theorem foldl_registerStep_ok : ∀ (l : List SClass) (m : List (String × SClass)),
    (m.map Prod.fst ++ l.filterMap SClass.name).Nodup →
    List.foldl registerStep (.ok m) l =
      .ok (m ++ l.filterMap (fun c => c.name.map (fun nm => (nm, c)))) := by
  intro l
  induction l with
  | nil => intro m _; simp
  | cons c cs ih =>
    intro m hnd
    cases hname : c.name with
    | none =>
      rw [List.foldl_cons]
      have hstep : registerStep (.ok m) c = .ok m := by simp [registerStep, hname]
      rw [hstep, ih m (by simpa [List.filterMap_cons, hname] using hnd)]
      simp [List.filterMap_cons, hname]
    | some nm =>
      simp only [List.filterMap_cons, hname] at hnd
      have hfresh : m.any (fun kv => kv.1 = nm) = false := by
        simp only [List.any_eq_false, decide_eq_true_eq]
        intro kv hkv h
        have hmem : nm ∈ m.map Prod.fst := List.mem_map.mpr ⟨kv, hkv, h⟩
        have hd := List.disjoint_of_nodup_append hnd
        exact hd hmem (by simp)
      rw [List.foldl_cons]
      have hstep : registerStep (.ok m) c = .ok (m ++ [(nm, c)]) := by
        simp [registerStep, hname, addParser, hfresh]
      have hnd2 : ((m ++ [(nm, c)]).map Prod.fst ++ cs.filterMap SClass.name).Nodup := by
        have heq : (m ++ [(nm, c)]).map Prod.fst ++ cs.filterMap SClass.name =
            m.map Prod.fst ++ nm :: cs.filterMap SClass.name := by
          simp
        rw [heq]
        exact hnd
      rw [hstep, ih (m ++ [(nm, c)]) hnd2]
      simp [List.filterMap_cons, hname]

/-- Registration fails with a conflicting-subparser error as soon as a
surfaced name repeats an already-registered one. -/
theorem foldl_registerStep_conflict : ∀ (l : List SClass) (m : List (String × SClass)),
    (m.map Prod.fst).Nodup →
    ¬ (m.map Prod.fst ++ l.filterMap SClass.name).Nodup →
    ∃ nm, List.foldl registerStep (.ok m) l = .error (.conflictingSubparser nm) := by
  intro l
  induction l with
  | nil =>
    intro m hm hnd
    simp at hnd
    exact absurd hm hnd
  | cons c cs ih =>
    intro m hm hnd
    cases hname : c.name with
    | none =>
      rw [List.foldl_cons]
      have hstep : registerStep (.ok m) c = .ok m := by simp [registerStep, hname]
      rw [hstep]
      exact ih m hm (by simpa [List.filterMap_cons, hname] using hnd)
    | some nm =>
      simp only [List.filterMap_cons, hname] at hnd
      cases hdup : m.any (fun kv => kv.1 = nm) with
      | true =>
        refine ⟨nm, ?_⟩
        rw [List.foldl_cons]
        have hstep : registerStep (.ok m) c = .error (.conflictingSubparser nm) := by
          simp [registerStep, hname, addParser, hdup]
        rw [hstep]
        exact foldl_registerStep_error _ cs
      | false =>
        rw [List.foldl_cons]
        have hstep : registerStep (.ok m) c = .ok (m ++ [(nm, c)]) := by
          simp [registerStep, hname, addParser, hdup]
        rw [hstep]
        have hnotmem : nm ∉ m.map Prod.fst := by
          simp only [List.any_eq_false, decide_eq_true_eq] at hdup
          intro hmem
          rcases List.mem_map.mp hmem with ⟨kv, hkv, h⟩
          exact hdup kv hkv h
        refine ih (m ++ [(nm, c)]) ?_ ?_
        · have heq : (m ++ [(nm, c)]).map Prod.fst = m.map Prod.fst ++ [nm] := by simp
          rw [heq, List.nodup_append]
          refine ⟨hm, List.nodup_singleton nm, ?_⟩
          intro x hx hx2
          simp at hx2
          subst hx2
          exact hnotmem hx
        · have heq : (m ++ [(nm, c)]).map Prod.fst ++ cs.filterMap SClass.name =
              m.map Prod.fst ++ nm :: cs.filterMap SClass.name := by
            simp
          rw [heq]
          exact hnd

/-! ### Claim theorems for the registry -/

/-- Counterexample to claim C6 as stated: a class whose `name` attribute is
the empty string is surfaced as a subcommand (line 70 only tests
`cls.name is not None`), yet it does not declare a non-empty name, so
"surfaced iff non-empty name" fails. -/
theorem surfaced_empty_name_counterexample :
    SClass.mk (some "") [] ∈ surfacedList [SClass.mk (some "") []] ∧
    ¬ ∃ nm : String, (SClass.mk (some "") []).name = some nm ∧ nm ≠ "" := by
  constructor
  · simp [surfacedList, bfs, SClass.subs, SClass.name]
  · simp [SClass.name]

/-- Claim C6 as amended: the traversal of lines 69-74 visits exactly the
classes reachable from the root's direct subclasses through any number of
specialization levels, and a visited class is surfaced as a subcommand if
and only if its `name` attribute is set (is not `None`) — even when that name
is the empty string; nameless classes are still traversed, so their named
descendants are surfaced. -/
theorem registry_traversal_and_surfacing (roots : List SClass) :
    (∀ c : SClass, c ∈ bfs roots ↔ ∃ r ∈ roots, Reaches1 r c) ∧
    (∀ c : SClass, c ∈ bfs roots → (c ∈ surfacedList roots ↔ c.name ≠ none)) := by
  refine ⟨mem_bfs_iff roots, ?_⟩
  intro c hc
  rw [surfacedList, List.mem_filter]
  simp [Option.isSome_iff_ne_none, hc]

/-- Witness for C6 (amended): in the hierarchy root → nameless mid → named
leaf, the leaf is reached at depth 2 and surfaced. -/
theorem registry_traversal_and_surfacing_witness :
    (SClass.mk (some "b") [] ∈
        surfacedList [SClass.mk (some "a") [SClass.mk none [SClass.mk (some "b") []]]]) ↔
      (SClass.mk (some "b") []).name ≠ none :=
  (registry_traversal_and_surfacing _).2 _ (by simp [bfs, SClass.subs])

/-- Claim C7: duplicate names among surfaced scraper variants are detected
as a configuration error during registration — argparse's `add_parser`
(Python 3.11+) raises `ArgumentError('conflicting subparser: ...')` when a
surfaced name repeats one already in the map (second conjunct) — and the
registry never silently shadows: when all surfaced names are distinct,
registration succeeds with every surfaced variant present in the map under
its own name (first conjunct), so no later registration replaces an earlier
one. -/
theorem duplicate_name_detected (roots : List SClass) :
    ((surfacedNames roots).Nodup → nameMap roots = .ok (surfacedPairs roots)) ∧
    (¬ (surfacedNames roots).Nodup →
      ∃ nm, nameMap roots = .error (.conflictingSubparser nm)) := by
  constructor
  · intro hnd
    have h := foldl_registerStep_ok (bfs roots) []
      (by simpa [surfacedNames] using hnd)
    simpa [nameMap, surfacedPairs] using h
  · intro hnd
    have h := foldl_registerStep_conflict (bfs roots) [] (by simp)
      (by simpa [surfacedNames] using hnd)
    simpa [nameMap] using h

/-- Witness for C7: distinct names register cleanly; a duplicated name "x"
aborts registration with a conflicting-subparser error. -/
theorem duplicate_name_detected_witness :
    nameMap [SClass.mk (some "x") [], SClass.mk (some "y") []] =
      .ok [("x", SClass.mk (some "x") []), ("y", SClass.mk (some "y") [])] ∧
    ∃ nm, nameMap [SClass.mk (some "x") [], SClass.mk (some "x") [SClass.mk none []]] =
      .error (.conflictingSubparser nm) := by
  constructor
  · have h := (duplicate_name_detected [SClass.mk (some "x") [], SClass.mk (some "y") []]).1
      (by simp [surfacedNames, bfs, SClass.subs, SClass.name])
    simpa [surfacedPairs, bfs, SClass.subs, SClass.name] using h
  · exact (duplicate_name_detected
      [SClass.mk (some "x") [], SClass.mk (some "x") [SClass.mk none []]]).2
      (by simp [surfacedNames, bfs, SClass.subs, SClass.name])

/-! ## No-scraper-selected check (`parse_args` lines 76-82, `main` lines 104-111)

`args.scraper` is the subparser destination: `None` when no subcommand was
given.  Line 79 tests Python truthiness (`if not args.scraper`), and `main`
only constructs the scraper (`args.cls.from_args(args)`, line 107) and pulls
items after `parse_args` has returned. -/

inductive CliError where
  | noScraperSelected
  deriving DecidableEq

/-- Python truthiness of the `Optional[str]` value `args.scraper`. -/
def pyTruthyStr : Option String → Bool
  | none => false
  | some s => s ≠ ""

/-- Lines 79-80: `if not args.scraper: raise RuntimeError(...)`. -/
def checkScraperSelected (scraper : Option String) : Except CliError Unit :=
  if pyTruthyStr scraper then .ok () else .error .noScraperSelected

/-- `main`: parse and validate the arguments, then (only on success)
construct the scraper, pull its items and run the loop.  `produceItems`
stands for `args.cls.from_args(args)` followed by `scraper.get_items()`. -/
def mainRun (scraper : Option String) (produceItems : Unit → List Item)
    (since maxResults : Option Int) : Except CliError (List Item × Term) :=
  match checkScraperSelected scraper with
  | .error e => .error e
  | .ok _ => .ok (runLoop since maxResults (produceItems ()))

/-- Claim C8: with no subcommand selected (`args.scraper = None`), the run
fails with the no-scraper-selected configuration error; the outcome is the
same for every possible scraper/item source, i.e. no scraper is constructed,
no item is produced, and no silent default is used. -/
theorem no_scraper_selected_errors (produceItems : Unit → List Item)
    (since maxResults : Option Int) :
    mainRun none produceItems since maxResults = .error .noScraperSelected ∧
    ∀ produceItems2 : Unit → List Item,
      mainRun none produceItems since maxResults =
        mainRun none produceItems2 since maxResults := by
  exact ⟨rfl, fun _ => rfl⟩

/-! ## Crash diagnostics (`_dump_locals_on_exception`, cli.py lines 14-35)

A stack frame record (one entry of `inspect.trace()`) is modelled by what the
code reads from it: the name of its owning module as returned by
`inspect.getmodule` (`none` when `getmodule` returns `None`, e.g. for frames
of dynamically generated code), the `repr` of its locals, its source
location, and — when a local named `self` with a `__dict__` exists — the
`repr` of that dict.  The exception being handled is modelled as an opaque
`String` (its identity/message); `raise` on line 35 re-raises that same
value. -/

structure Frame where
  moduleName : Option String
  localsRepr : String
  filename : String
  lineno : Nat
  functionName : String
  selfDictRepr : Option String
  deriving DecidableEq

/-- One text block written to the temporary file for a serialized frame
(lines 27-33). -/
structure Block where
  filename : String
  lineno : Nat
  functionName : String
  localsRepr : String
  objectDictRepr : Option String
  deriving DecidableEq

/-- Line 24's ownership test on a module name:
`module.__name__.startswith('snscrape.') or module.__name__ == 'snscrape'`
(the code `continue`s when this is false).  `str.startswith` is modelled as
a prefix test on the character lists. -/
def ownedModule (nm : String) : Bool :=
  "snscrape.".data.isPrefixOf nm.data || nm = "snscrape"

/-- Whether a frame passes the ownership test, assuming its module could be
determined. -/
def frameOwned (fr : Frame) : Bool :=
  match fr.moduleName with
  | some nm => ownedModule nm
  | none => false

def writeBlock (fr : Frame) : Block :=
  { filename := fr.filename
    lineno := fr.lineno
    functionName := fr.functionName
    localsRepr := fr.localsRepr
    objectDictRepr := fr.selfDictRepr }

/-- The frame walk of lines 22-33.  For each frame: line 23 evaluates
`inspect.getmodule(frameRecord[0])` and line 24 immediately dereferences
`module.__name__`; when `getmodule` returned `None` this raises
`AttributeError` inside the `except` block (modelled as `.error ()`), which
aborts the walk.  Otherwise a non-owned frame is skipped and an owned frame
is serialized. -/
def processFrames : List Frame → Except Unit (List Block)
  | [] => .ok []
  | fr :: rest =>
    match fr.moduleName with
    | none => .error ()
    | some nm =>
      if ownedModule nm then
        match processFrames rest with
        | .ok blocks => .ok (writeBlock fr :: blocks)
        | .error e => .error e
      else
        processFrames rest

/-- The blocks an error-free walk writes. -/
def collectBlocks (frames : List Frame) : List Block :=
  (frames.filter frameOwned).map writeBlock

/-- Possible outcomes of the `except` block of lines 18-35. -/
inductive DumpOutcome where
  /-- The original exception was re-raised by line 35; `artifact` is `none`
  when line 20's test skipped diagnostics (no file created), otherwise the
  list of blocks written to the uniquely named temporary file. -/
  | reraised (exc : String) (artifact : Option (List Block))
  /-- The handler itself raised a new `AttributeError` on line 24, masking
  the original exception. -/
  | handlerCrash
  deriving DecidableEq

/-- `_dump_locals_on_exception` catching exception `e` with call-stack trace
`trace` (the list returned by `inspect.trace()`; its first two entries are
the wrapper's own frames, skipped by `trace[2:]` on line 22). -/
def dumpLocalsOnException (e : String) (trace : List Frame) : DumpOutcome :=
  if trace.length ≥ 3 then
    match processFrames (trace.drop 2) with
    | .ok blocks => .reraised e (some blocks)
    | .error _ => .handlerCrash
  else
    .reraised e none

/-! ### Diagnostics lemmas -/

theorem processFrames_ok_of_owned : ∀ frames : List Frame,
    frames.all frameOwned → processFrames frames = .ok (collectBlocks frames) := by
  intro frames
  induction frames with
  | nil => intro _; rfl
  | cons fr rest ih =>
    intro h
    rw [List.all_cons, Bool.and_eq_true] at h
    obtain ⟨hfr, hrest⟩ := h
    match hm : fr.moduleName with
    | none => rw [frameOwned, hm] at hfr; cases hfr
    | some nm =>
      have howned : ownedModule nm = true := by rw [frameOwned, hm] at hfr; exact hfr
      simp [processFrames, hm, howned, ih hrest, collectBlocks, frameOwned]

/-! ### Claim theorems for crash diagnostics -/

/-- Claim C3: if the trace has fewer than 3 frames, no diagnostic artifact is
produced and the original exception is re-raised unchanged; if the failure
sits 3 or more frames deep inside snscrape's own components (every frame past
the two wrapper frames is owned by an `snscrape` module), exactly one
artifact is produced, it contains at least one frame's locals, and the
original exception is again re-raised unchanged. -/
theorem dump_locals_artifact (e : String) (trace : List Frame) :
    (trace.length < 3 → dumpLocalsOnException e trace = .reraised e none) ∧
    (3 ≤ trace.length → (trace.drop 2).all frameOwned →
      dumpLocalsOnException e trace = .reraised e (some (collectBlocks (trace.drop 2))) ∧
      collectBlocks (trace.drop 2) ≠ []) := by
  constructor
  · intro h
    rw [dumpLocalsOnException, if_neg (by omega)]
  · intro hlen howned
    refine ⟨?_, ?_⟩
    · rw [dumpLocalsOnException, if_pos (by omega),
        processFrames_ok_of_owned (trace.drop 2) howned]
    · have hne : trace.drop 2 ≠ [] := by
        intro h
        have := congrArg List.length h
        simp at this
        omega
      match hd : trace.drop 2 with
      | [] => exact absurd hd hne
      | fr :: rest =>
        rw [hd] at howned
        rw [List.all_cons, Bool.and_eq_true] at howned
        simp [collectBlocks, List.filter_cons, howned.1]

/-- Witness for C3: a 2-frame trace skips diagnostics; a 3-frame trace whose
third frame belongs to an snscrape module writes exactly that frame's
block. -/
theorem dump_locals_artifact_witness :
    dumpLocalsOnException "boom"
        [⟨some "snscrape.cli", "e=1", "cli.py", 17, "ctx", none⟩,
         ⟨some "snscrape.cli", "args=ns", "cli.py", 111, "main", none⟩] =
      .reraised "boom" none ∧
    dumpLocalsOnException "boom"
        [⟨some "snscrape.cli", "e=1", "cli.py", 17, "ctx", none⟩,
         ⟨some "snscrape.cli", "args=ns", "cli.py", 111, "main", none⟩,
         ⟨some "snscrape.modules.web", "url=u", "web.py", 40, "get_items", some "retries=3"⟩] =
      .reraised "boom"
        (some [⟨"web.py", 40, "get_items", "url=u", some "retries=3"⟩]) ∧
    ([(⟨"web.py", 40, "get_items", "url=u", some "retries=3"⟩ : Block)] ≠ []) := by
  refine ⟨?_, ?_, by simp⟩
  · exact (dump_locals_artifact "boom"
      [⟨some "snscrape.cli", "e=1", "cli.py", 17, "ctx", none⟩,
       ⟨some "snscrape.cli", "args=ns", "cli.py", 111, "main", none⟩]).1 (by decide)
  · exact ((dump_locals_artifact "boom"
      [⟨some "snscrape.cli", "e=1", "cli.py", 17, "ctx", none⟩,
       ⟨some "snscrape.cli", "args=ns", "cli.py", 111, "main", none⟩,
       ⟨some "snscrape.modules.web", "url=u", "web.py", 40, "get_items",
         some "retries=3"⟩]).2 (by decide) (by decide)).1

/-- Claim C9 is contradicted by the code (code bug): when a frame past the
first two has no determinable owning module (`inspect.getmodule` returns
`None`, as happens e.g. for frames of dynamically generated code), line 24
evaluates `None.__name__` and the crash handler itself raises
`AttributeError`, aborting the stack walk and masking the original
exception — instead of treating the frame as not owned, as the spec's
"without crashing the crash handler itself" requires. -/
theorem dump_locals_handler_crash :
    dumpLocalsOnException "boom"
        [⟨some "snscrape.cli", "e=1", "cli.py", 17, "ctx", none⟩,
         ⟨some "snscrape.cli", "args=ns", "cli.py", 111, "main", none⟩,
         ⟨none, "x=2", "gen.py", 5, "gen", none⟩] = .handlerCrash := by
  decide

/-! ## Datetime parser (`parse_datetime_arg`, cli.py lines 38-55)

The code calls `datetime.datetime.strptime(arg, format)` for the four format
strings `%Y-%m-%d %H:%M:%S %z`, `%Y-%m-%d %H:%M:%S`, `%Y-%m-%d %z` and
`%Y-%m-%d`, in that order, returning on the first success and treating a
`ValueError` as "try the next format".

CPython's `_strptime` compiles a format into a regular expression and
requires the match to consume the whole input ("unconverted data remains"
otherwise).  The directive patterns used here are, verbatim from
`_strptime.TimeRE`:

  %Y  four digits
  %m  1[0-2] or 0[1-9] or [1-9]
  %d  3[01] or [12] digit or 0[1-9] or [1-9]
  %H  2[0-3] or [01] digit or one digit
  %M  [0-5] digit or one digit
  %S  6[0-1] or [0-5] digit or one digit
  %z  sign, two digits, optional colon, [0-5] digit, then optionally an
      optional colon, [0-5] digit and an optional fraction of 1 to 6 digits;
      or the letter Z.  The offset in seconds is sign*(HH*3600+MM*60+SS).
      After the regex phase `_strptime` post-processes the matched string
      and raises `ValueError` when the colons are used inconsistently (a
      colon after the hours but none before the seconds, or vice versa).
  a literal space in the format matches one or more whitespace characters

Python's `\d`, `\s` and `int()` also accept non-ASCII Unicode digits and
whitespace; the model's alphabet is ASCII, on which it is exact.

Each directive below returns its possible matches as `(value, rest)` pairs in
the regex alternation/greediness order, and `matchToks` backtracks over them.
For these four formats this search is equivalent to CPython's
leftmost-preference match followed by the full-consumption check (candidate
lists are ordered longest-first within each directive, and a shorter
candidate for a non-final directive always fails on the following literal or
directive).  The fractional part of a %z offset is accepted syntactically
but its sub-second value is dropped: the model works at second resolution.

After the regex phase, `datetime`'s constructor validates the fields (year
1-9999, day within the month, second at most 59, timezone offset strictly
within a day), raising `ValueError` — i.e. "try the next format" — on
violation. -/

def digVal (c : Char) : Nat := c.toNat - 48

/-- ASCII whitespace as matched by the `\s` regex class. -/
def isPySpace (c : Char) : Bool :=
  c = ' ' || c = '\t' || c = '\n' || c = '\r' || c = '\x0b' || c = '\x0c'

def candY : List Char → List (Nat × List Char)
  | a :: b :: c :: d :: rest =>
    if a.isDigit && b.isDigit && c.isDigit && d.isDigit then
      [(digVal a * 1000 + digVal b * 100 + digVal c * 10 + digVal d, rest)]
    else []
  | _ => []

def candm (cs : List Char) : List (Nat × List Char) :=
  (match cs with
   | a :: b :: rest =>
     (if a = '1' && b.isDigit && digVal b ≤ 2 then [(10 + digVal b, rest)] else []) ++
     (if a = '0' && b.isDigit && 1 ≤ digVal b then [(digVal b, rest)] else [])
   | _ => []) ++
  (match cs with
   | a :: rest =>
     if a.isDigit && 1 ≤ digVal a then [(digVal a, rest)] else []
   | _ => [])

def candd (cs : List Char) : List (Nat × List Char) :=
  (match cs with
   | a :: b :: rest =>
     (if a = '3' && b.isDigit && digVal b ≤ 1 then [(30 + digVal b, rest)] else []) ++
     (if (a = '1' || a = '2') && b.isDigit then [(digVal a * 10 + digVal b, rest)] else []) ++
     (if a = '0' && b.isDigit && 1 ≤ digVal b then [(digVal b, rest)] else [])
   | _ => []) ++
  (match cs with
   | a :: rest =>
     if a.isDigit && 1 ≤ digVal a then [(digVal a, rest)] else []
   | _ => [])

def candH (cs : List Char) : List (Nat × List Char) :=
  (match cs with
   | a :: b :: rest =>
     (if a = '2' && b.isDigit && digVal b ≤ 3 then [(20 + digVal b, rest)] else []) ++
     (if (a = '0' || a = '1') && b.isDigit then [(digVal a * 10 + digVal b, rest)] else [])
   | _ => []) ++
  (match cs with
   | a :: rest => if a.isDigit then [(digVal a, rest)] else []
   | _ => [])

def candM (cs : List Char) : List (Nat × List Char) :=
  (match cs with
   | a :: b :: rest =>
     if a.isDigit && digVal a ≤ 5 && b.isDigit then
       [(digVal a * 10 + digVal b, rest)]
     else []
   | _ => []) ++
  (match cs with
   | a :: rest => if a.isDigit then [(digVal a, rest)] else []
   | _ => [])

def candS (cs : List Char) : List (Nat × List Char) :=
  (match cs with
   | a :: b :: rest =>
     (if a = '6' && b.isDigit && digVal b ≤ 1 then [(60 + digVal b, rest)] else []) ++
     (if a.isDigit && digVal a ≤ 5 && b.isDigit then [(digVal a * 10 + digVal b, rest)] else [])
   | _ => []) ++
  (match cs with
   | a :: rest => if a.isDigit then [(digVal a, rest)] else []
   | _ => [])

/-- `\s+`: consume at least one whitespace character; candidates in greedy
(longest-first) order. -/
def candWS (cs : List Char) : List (List Char) :=
  let n := (cs.takeWhile isPySpace).length
  (List.range n).map (fun k => cs.drop (n - k))

/-- `[0-5]\d`: exactly two characters. -/
def candTwo05 (cs : List Char) : List (Nat × List Char) :=
  match cs with
  | a :: b :: rest =>
    if a.isDigit && digVal a ≤ 5 && b.isDigit then [(digVal a * 10 + digVal b, rest)] else []
  | _ => []

/-- `(\.\d{1,6})?`: greedy, fraction value ignored. -/
def candFrac (cs : List Char) : List (List Char) :=
  (match cs with
   | '.' :: r =>
     let n := min 6 (r.takeWhile Char.isDigit).length
     (List.range n).map (fun k => r.drop (n - k))
   | _ => []) ++ [cs]

/-- `(:?[0-5]\d(\.\d{1,6})?)?`: the optional seconds part of a %z offset;
`0` seconds when absent (as in `int(z[5:7] or 0)`), with `_strptime`'s
colon-consistency post-processing folded in.  CPython's regex accepts a
colon before the seconds independently of whether one followed the hours,
but `_strptime` then raises `ValueError` — "Inconsistent use of :" when the
hours had a colon and the seconds do not, a failing `int(':d')` conversion
in the opposite case — so only parses whose seconds-colon agrees with the
hours-colon survive.  For these four formats %z is the final token and at
most one candidate assignment can consume the whole input, so rejecting the
inconsistent candidates here is extensionally the raised `ValueError`. -/
def candSecPart (colonAfterHours : Bool) (cs : List Char) : List (Nat × List Char) :=
  (let body : List (Nat × List Char) :=
    if colonAfterHours then
      match cs with
      | ':' :: r => candTwo05 r
      | _ => []
    else
      candTwo05 cs
  body.flatMap fun p => (candFrac p.2).map fun cs3 => (p.1, cs3)) ++ [(0, cs)]

/-- All matches of the %z pattern, as `(offset seconds, rest)` pairs.  The
regex `:?` after the hours could also skip a colon that is present, but the
minutes' `[0-5]\d` can never match the skipped colon, so consuming the colon
exactly when present loses no parse. -/
def candz (cs : List Char) : List (Int × List Char) :=
  (match cs with
   | sgn :: a :: b :: rest =>
     if (sgn = '+' || sgn = '-') && a.isDigit && b.isDigit then
       let colonAfterHours := match rest with | ':' :: _ => true | _ => false
       let rest1 := match rest with | ':' :: r => r | _ => rest
       (candTwo05 rest1).flatMap fun mm =>
         (candSecPart colonAfterHours mm.2).map fun ssp =>
           ((if sgn = '-' then (-1 : Int) else 1) *
              ((digVal a * 10 + digVal b) * 3600 + mm.1 * 60 + ssp.1 : Nat),
            ssp.2)
     else []
   | _ => []) ++
  (match cs with
   | 'Z' :: rest => [((0 : Int), rest)]
   | _ => [])

/-- The fields `datetime.strptime` extracts, with `_strptime`'s defaults
(year 1900, January 1st, midnight, no timezone). -/
structure PyDatetime where
  y : Nat := 1900
  mo : Nat := 1
  dy : Nat := 1
  hh : Nat := 0
  mi : Nat := 0
  ss : Nat := 0
  tzOff : Option Int := none
  deriving DecidableEq

/-- The format directives appearing in the four format strings. -/
inductive Tok where
  | tY | tm | td | tH | tM | tS | tz
  | lit (c : Char)
  | ws
  deriving DecidableEq

/-- Match a token sequence against the input, requiring full consumption
("unconverted data remains" check), backtracking over each directive's
candidates in regex preference order. -/
def matchToks : List Tok → List Char → PyDatetime → Option PyDatetime
  | [], cs, acc => if cs.isEmpty then some acc else none
  | .lit c :: ts, cs, acc =>
    match cs with
    | c2 :: rest => if c2 = c then matchToks ts rest acc else none
    | [] => none
  | .ws :: ts, cs, acc => (candWS cs).findSome? fun rest => matchToks ts rest acc
  | .tY :: ts, cs, acc => (candY cs).findSome? fun p => matchToks ts p.2 { acc with y := p.1 }
  | .tm :: ts, cs, acc => (candm cs).findSome? fun p => matchToks ts p.2 { acc with mo := p.1 }
  | .td :: ts, cs, acc => (candd cs).findSome? fun p => matchToks ts p.2 { acc with dy := p.1 }
  | .tH :: ts, cs, acc => (candH cs).findSome? fun p => matchToks ts p.2 { acc with hh := p.1 }
  | .tM :: ts, cs, acc => (candM cs).findSome? fun p => matchToks ts p.2 { acc with mi := p.1 }
  | .tS :: ts, cs, acc => (candS cs).findSome? fun p => matchToks ts p.2 { acc with ss := p.1 }
  | .tz :: ts, cs, acc =>
    (candz cs).findSome? fun p => matchToks ts p.2 { acc with tzOff := some p.1 }

def isLeapYear (y : Nat) : Bool :=
  y % 4 = 0 && (y % 100 ≠ 0 || y % 400 = 0)

def daysInMonth (y mo : Nat) : Nat :=
  if mo = 2 then (if isLeapYear y then 29 else 28)
  else if mo = 4 || mo = 6 || mo = 9 || mo = 11 then 30
  else 31

/-- The validation performed by the `datetime` constructor (and by the
`timezone` constructor for the offset): raising `ValueError` — caught by the
caller — when violated. -/
def validDT (a : PyDatetime) : Bool :=
  1 ≤ a.y && a.y ≤ 9999 && 1 ≤ a.mo && a.mo ≤ 12 &&
  1 ≤ a.dy && a.dy ≤ daysInMonth a.y a.mo &&
  a.hh ≤ 23 && a.mi ≤ 59 && a.ss ≤ 59 &&
  (match a.tzOff with
   | none => true
   | some off => -86400 < off && off < 86400)

/-- `datetime.datetime.strptime(arg, format)`: `none` models `ValueError`. -/
def strptime (fmt : List Tok) (cs : List Char) : Option PyDatetime :=
  match matchToks fmt cs {} with
  | some a => if validDT a then some a else none
  | none => none

def fmtYmd : List Tok := [.tY, .lit '-', .tm, .lit '-', .td]
def fmtYmdHMS : List Tok := fmtYmd ++ [.ws, .tH, .lit ':', .tM, .lit ':', .tS]
def fmtYmdHMSz : List Tok := fmtYmdHMS ++ [.ws, .tz]
def fmtYmdz : List Tok := fmtYmd ++ [.ws, .tz]

/-- The tuple of line 39, in source order. -/
def formatList : List (List Tok) := [fmtYmdHMSz, fmtYmdHMS, fmtYmdz, fmtYmd]

/-- The `for format in (...)` loop of lines 39-47 up to its `else: return`:
the first format that parses wins. -/
def tryFormats (cs : List Char) : Option PyDatetime :=
  formatList.findSome? fun fmt => strptime fmt cs

/-- Days between a proleptic-Gregorian civil date and 1970-01-01 (the civil
calendar `datetime` uses); negative before the epoch.  All intermediate
divisions run on non-negative values for the years 1-9999 that reach this
function. -/
def daysFromCivil (y mo dy : Int) : Int :=
  let y2 := if mo ≤ 2 then y - 1 else y
  let era := (if 0 ≤ y2 then y2 else y2 - 399) / 400
  let yoe := y2 - era * 400
  let mp := if 2 < mo then mo - 3 else mo + 9
  let doy := (153 * mp + 2) / 5 + dy - 1
  let doe := yoe * 365 + yoe / 4 - yoe / 100 + doy
  era * 146097 + doe - 719468

/-- The wall-clock fields of a datetime as seconds since the epoch, ignoring
any timezone. -/
def wallSeconds (a : PyDatetime) : Int :=
  daysFromCivil a.y a.mo a.dy * 86400 + a.hh * 3600 + a.mi * 60 + a.ss

/-- An aware datetime, reduced to what the driver observes of the value
`parse_datetime_arg` returns: the absolute instant (seconds since the epoch,
UTC) and the `tzinfo` offset attached to it. -/
structure Aware where
  epochSec : Int
  offsetSec : Int
  deriving DecidableEq

/-- Lines 45-47: a naive result gets `tzinfo = datetime.timezone.utc`
(offset 0) via `d.replace(...)`; an aware result is returned as is. -/
def awareOf (a : PyDatetime) : Aware :=
  match a.tzOff with
  | none => { epochSec := wallSeconds a, offsetSec := 0 }
  | some off => { epochSec := wallSeconds a - off, offsetSec := off }

/-- Smallest timestamp `datetime` can represent: 0001-01-01 00:00:00 UTC. -/
def minTimestamp : Int := daysFromCivil 1 1 1 * 86400

/-- Largest timestamp `datetime` can represent: 9999-12-31 23:59:59 UTC. -/
def maxTimestamp : Int := daysFromCivil 9999 12 31 * 86400 + 86399

/-- Outcome of `datetime.datetime.fromtimestamp(n, datetime.timezone.utc)`:
only `valueError` is caught by line 51's `except ValueError`;
`uncaughtError` covers `OverflowError` and `OSError`, which escape
`parse_datetime_arg` entirely. -/
inductive FromTs where
  | ok (a : Aware)
  | valueError
  | uncaughtError
  deriving DecidableEq

/-- Range of the platform `time_t` (64-bit on the supported CPython/Linux
target): CPython raises `OverflowError` ("timestamp out of range for
platform time_t") converting seconds outside it. -/
def timetMin : Int := -9223372036854775808
def timetMax : Int := 9223372036854775807

/-- Range within which the platform `gmtime` conversion CPython uses for an
aware `fromtimestamp` succeeds: glibc fails with `EOVERFLOW` — surfaced as
`OSError` — when the year minus 1900 does not fit the C `int` field
`tm_year`, i.e. outside years -2147481748..2147485547 (so e.g.
`fromtimestamp(10**17, utc)` raises `OSError` while `10**19` exceeds
`time_t` and raises `OverflowError`). -/
def gmtimeMinEpoch : Int := daysFromCivil (-2147481748) 1 1 * 86400
def gmtimeMaxEpoch : Int := daysFromCivil 2147485547 12 31 * 86400 + 86399

/-- Line 50: `datetime.datetime.fromtimestamp(n, datetime.timezone.utc)`:
`OverflowError` beyond `time_t`, `OSError` where `gmtime` fails, and
`ValueError` — the only error line 51 catches — when the conversion
succeeds but the year falls outside `datetime`'s range 1-9999. -/
def fromtimestampUTC (n : Int) : FromTs :=
  if n < timetMin ∨ timetMax < n then .uncaughtError
  else if n < gmtimeMinEpoch ∨ gmtimeMaxEpoch < n then .uncaughtError
  else if n < minTimestamp ∨ maxTimestamp < n then .valueError
  else .ok { epochSec := n, offsetSec := 0 }

/-- Decimal digits with single underscores between them, as accepted by
`int(str)`: `digit ((_)? digit)*`. -/
def digitsUnd : List Char → Option Nat :=
  let rec go (acc : Nat) : List Char → Option Nat
    | [] => some acc
    | '_' :: c :: rest =>
      if c.isDigit then go (acc * 10 + digVal c) rest else none
    | ['_'] => none
    | c :: rest => if c.isDigit then go (acc * 10 + digVal c) rest else none
  fun cs =>
    match cs with
    | c :: rest => if c.isDigit then go (digVal c) rest else none
    | [] => none

/-- `int(arg)` on a string: strip whitespace at both ends, then an optional
sign and an underscore-grouped digit run; `none` models `ValueError`.
(Python also accepts non-ASCII digits and whitespace; the model is ASCII.) -/
def pyInt (cs : List Char) : Option Int :=
  let stripped := ((cs.dropWhile isPySpace).reverse.dropWhile isPySpace).reverse
  match stripped with
  | '+' :: rest => (digitsUnd rest).map fun n => (n : Int)
  | '-' :: rest => (digitsUnd rest).map fun n => -(n : Int)
  | rest => (digitsUnd rest).map fun n => (n : Int)

/-- What an invocation of `parse_datetime_arg` can do:
`unparsableTimestamp` is the `argparse.ArgumentTypeError(f'Cannot parse
{arg!r} ...')` of line 55, carrying the original string; `uncaughtError` is
an `OverflowError`/`OSError` from line 50 escaping the function (line 51
catches only `ValueError`). -/
inductive ParseOutcome where
  | ok (a : Aware)
  | unparsableTimestamp (arg : String)
  | uncaughtError
  deriving DecidableEq

/-- `parse_datetime_arg` (lines 38-55): try the four formats in order; on
the first success return the datetime, assumed UTC when naive; otherwise try
the string as an integer Unix timestamp, where only a `ValueError` falls
through to the final raise. -/
def parse_datetime_arg (s : String) : ParseOutcome :=
  match tryFormats s.data with
  | some a => .ok (awareOf a)
  | none =>
    match pyInt s.data with
    | some n =>
      match fromtimestampUTC n with
      | .ok a => .ok a
      | .valueError => .unparsableTimestamp s
      | .uncaughtError => .uncaughtError
    | none => .unparsableTimestamp s

/-! ### Claim theorems for the datetime parser -/

/-- Claim C4: the parser tries the four layouts "date time with offset",
"date time without offset", "date with offset", "date only" in exactly that
order and returns the result of the first that parses (conjuncts 1-4); a
result whose layout carried no timezone is assumed to be UTC, i.e. its
wall-clock fields are read as UTC and it carries offset 0 (conjunct 5); a
bare date-only string yields midnight UTC of that date and the
date-time-with-offset example round-trips to the expected UTC instant
(conjuncts 6-7). -/
theorem layouts_tried_in_order (s : String) :
    (∀ a, strptime fmtYmdHMSz s.data = some a →
        parse_datetime_arg s = .ok (awareOf a)) ∧
    (strptime fmtYmdHMSz s.data = none →
      ∀ a, strptime fmtYmdHMS s.data = some a →
        parse_datetime_arg s = .ok (awareOf a)) ∧
    (strptime fmtYmdHMSz s.data = none → strptime fmtYmdHMS s.data = none →
      ∀ a, strptime fmtYmdz s.data = some a →
        parse_datetime_arg s = .ok (awareOf a)) ∧
    (strptime fmtYmdHMSz s.data = none → strptime fmtYmdHMS s.data = none →
      strptime fmtYmdz s.data = none →
      ∀ a, strptime fmtYmd s.data = some a →
        parse_datetime_arg s = .ok (awareOf a)) ∧
    (∀ a, tryFormats s.data = some a → a.tzOff = none →
        parse_datetime_arg s = .ok { epochSec := wallSeconds a, offsetSec := 0 }) ∧
    parse_datetime_arg "2023-01-02" = .ok { epochSec := 1672617600, offsetSec := 0 } ∧
    parse_datetime_arg "2023-01-02 03:04:05 +0000" =
      .ok { epochSec := 1672628645, offsetSec := 0 } := by
  refine ⟨?_, ?_, ?_, ?_, ?_, by decide, by decide⟩
  · intro a h
    simp [parse_datetime_arg, tryFormats, formatList, List.findSome?_cons, h]
  · intro h1 a h
    simp [parse_datetime_arg, tryFormats, formatList, List.findSome?_cons, h1, h]
  · intro h1 h2 a h
    simp [parse_datetime_arg, tryFormats, formatList, List.findSome?_cons, h1, h2, h]
  · intro h1 h2 h3 a h
    simp [parse_datetime_arg, tryFormats, formatList, List.findSome?_cons, h1, h2, h3, h]
  · intro a h htz
    simp [parse_datetime_arg, h, awareOf, htz]

/-- Witness for C4: the first layout wins on the offset example; the
date-only example is naive and assumed UTC. -/
theorem layouts_tried_in_order_witness :
    parse_datetime_arg "2023-01-02 03:04:05 +0000" =
      .ok (awareOf { y := 2023, mo := 1, dy := 2, hh := 3, mi := 4, ss := 5,
                     tzOff := some 0 }) ∧
    parse_datetime_arg "2023-01-02" =
      .ok { epochSec := wallSeconds { y := 2023, mo := 1, dy := 2 }, offsetSec := 0 } :=
  ⟨(layouts_tried_in_order "2023-01-02 03:04:05 +0000").1 _ (by decide),
   (layouts_tried_in_order "2023-01-02").2.2.2.2.1 _ (by decide) (by decide)⟩

/-- Ordering of the platform bounds around `datetime`'s representable
range. -/
theorem platform_bounds :
    timetMin < gmtimeMinEpoch ∧ gmtimeMinEpoch < minTimestamp ∧
    minTimestamp < maxTimestamp ∧ maxTimestamp < gmtimeMaxEpoch ∧
    gmtimeMaxEpoch < timetMax := by
  decide

/-- Counterexample to claim C5 as stated: the string "300000000000" is
matched by none of the four layouts and represents an integer, yet the
parser fails with the unparsable-timestamp error instead of returning that
integer as a Unix timestamp: the instant would fall in year 11476, beyond
`datetime`'s year 9999, so `fromtimestamp` raises `ValueError` and line 52
falls through to the final `raise`. -/
theorem integer_fallback_counterexample :
    tryFormats "300000000000".data = none ∧
    pyInt "300000000000".data = some 300000000000 ∧
    parse_datetime_arg "300000000000" = .unparsableTimestamp "300000000000" ∧
    ¬ parse_datetime_arg "300000000000" =
        .ok { epochSec := 300000000000, offsetSec := 0 } := by
  refine ⟨by decide, by decide, by decide, by decide⟩

/-- Claim C5 as amended: for a string matched by none of the four layouts:
a string not representing an integer fails with the unparsable-timestamp
error carrying the original string (conjunct 1); an integer within
`datetime`'s representable range (years 1-9999) yields that integer as a
Unix timestamp in UTC (conjunct 2); an out-of-range integer never yields a
timestamp (conjunct 5): it fails with the unparsable-timestamp error when
the platform conversion itself succeeds and only `datetime`'s year check
fails — a `ValueError`, the one error line 51 catches (conjunct 3) — while
an integer beyond the platform's `gmtime`/`time_t` range escapes as an
uncaught `OSError`/`OverflowError` (conjunct 4). -/
theorem integer_fallback (s : String) (hfmt : tryFormats s.data = none) :
    (pyInt s.data = none → parse_datetime_arg s = .unparsableTimestamp s) ∧
    (∀ n : Int, pyInt s.data = some n → minTimestamp ≤ n → n ≤ maxTimestamp →
      parse_datetime_arg s = .ok { epochSec := n, offsetSec := 0 }) ∧
    (∀ n : Int, pyInt s.data = some n → (n < minTimestamp ∨ maxTimestamp < n) →
      gmtimeMinEpoch ≤ n → n ≤ gmtimeMaxEpoch →
      parse_datetime_arg s = .unparsableTimestamp s) ∧
    (∀ n : Int, pyInt s.data = some n → (n < gmtimeMinEpoch ∨ gmtimeMaxEpoch < n) →
      parse_datetime_arg s = .uncaughtError) ∧
    (∀ n : Int, pyInt s.data = some n → (n < minTimestamp ∨ maxTimestamp < n) →
      ¬ parse_datetime_arg s = .ok { epochSec := n, offsetSec := 0 }) := by
  obtain ⟨b1, b2, b3, b4, b5⟩ := platform_bounds
  refine ⟨?_, ?_, ?_, ?_, ?_⟩
  · intro h
    rw [parse_datetime_arg, hfmt, h]
  · intro n h hlo hhi
    rw [parse_datetime_arg, hfmt, h]
    simp only [fromtimestampUTC]
    rw [if_neg (by omega), if_neg (by omega), if_neg (by omega)]
  · intro n h hout hlo hhi
    rw [parse_datetime_arg, hfmt, h]
    simp only [fromtimestampUTC]
    rw [if_neg (by omega), if_neg (by omega), if_pos (by omega)]
  · intro n h hout
    rw [parse_datetime_arg, hfmt, h]
    simp only [fromtimestampUTC]
    by_cases ht : n < timetMin ∨ timetMax < n
    · rw [if_pos ht]
    · rw [if_neg ht, if_pos (by omega)]
  · intro n h hout
    rw [parse_datetime_arg, hfmt, h]
    simp only [fromtimestampUTC]
    by_cases ht : n < timetMin ∨ timetMax < n
    · rw [if_pos ht]
      exact fun hc => ParseOutcome.noConfusion hc
    · by_cases hg : n < gmtimeMinEpoch ∨ gmtimeMaxEpoch < n
      · rw [if_neg ht, if_pos hg]
        exact fun hc => ParseOutcome.noConfusion hc
      · rw [if_neg ht, if_neg hg, if_pos (by omega)]
        exact fun hc => ParseOutcome.noConfusion hc

/-- Witness for C5 (amended): an in-range numeric string returns its
timestamp; a moderately out-of-range one (year 14645) hits the caught
`ValueError` and raises the unparsable-timestamp error; 10^17 is beyond the
platform `gmtime` range and escapes uncaught. -/
theorem integer_fallback_witness :
    parse_datetime_arg "1672617600" = .ok { epochSec := 1672617600, offsetSec := 0 } ∧
    parse_datetime_arg "400000000000" = .unparsableTimestamp "400000000000" ∧
    parse_datetime_arg "100000000000000000" = .uncaughtError :=
  ⟨(integer_fallback "1672617600" (by decide)).2.1 1672617600
      (by decide) (by decide) (by decide),
   (integer_fallback "400000000000" (by decide)).2.2.1 400000000000
      (by decide) (by decide) (by decide) (by decide),
   (integer_fallback "100000000000000000" (by decide)).2.2.2.1 100000000000000000
      (by decide) (by decide)⟩

end Snscrape
